import Mathlib

/-!
Verification of the `.msscmp` soundbank decoder (`msscmp.py`).

The decoder is embedded shallowly: the byte stream is a `List Nat` of byte
values together with a cursor position (`Nat`); every reader operation is a
state-passing function `Nat → Except DecodeError (α × Nat)` on the cursor,
mirroring `BufferedDataReader` and the module-level `readAt` helper.  Python
exceptions become `Except.error` values.
-/

set_option autoImplicit false
set_option maxRecDepth 100000

deriving instance DecidableEq for Except

namespace Msscmp

/-- Byte order selected by the 4-byte signature (`'<'`/`'>'` in `struct`). -/
inductive Endian where
  | big
  | little
deriving DecidableEq

/-- The failure cases of the decoder.  The Python code raises plain
`Exception`/`struct.error`/`ValueError`/`OSError`; each model constructor
records which raise site it stands for. -/
inductive DecodeError where
  /-- `process`: `raise Exception("File is not a Soundbank.")` -/
  | unrecognizedFormat
  /-- `struct.unpack` on fewer bytes than requested. -/
  | truncated
  /-- `readUntil` walking past the end of the stream without a `0x00`. -/
  | noTerminator
  /-- `bytes.decode("ASCII")` on a byte `≥ 0x80`. -/
  | badEncoding
  /-- `stream.seek` with a negative absolute offset. -/
  | badSeek
  /-- `readBankSource`: `raise Exception("Unexpected offset difference: ...")`,
  carrying the expected and the received offset. -/
  | offsetIntegrity (expected : Int) (actual : Int)
  /-- `int(...)` raising `ValueError` on the decorated file name. -/
  | badIntLiteral (s : String)
deriving DecidableEq

/-- Reader computations: the fixed byte list is passed separately, the state
is the cursor position. -/
abbrev M (α : Type) : Type := Nat → Except DecodeError (α × Nat)

/-- Sequencing of reader computations. -/
def mbind {α β : Type} (m : M α) (f : α → M β) : M β := fun p =>
  match m p with
  | .error err => .error err
  | .ok (a, q) => f a q

/-- A computation returning a value without touching the cursor. -/
def mret {α : Type} (a : α) : M α := fun p => .ok (a, p)

/-- A raised exception. -/
def mfail {α : Type} (err : DecodeError) : M α := fun _ => .error err

/-- `stream.tell()`. -/
def tell : M Nat := fun p => .ok (p, p)

/-- `stream.seek(off, SEEK_SET)`; a negative absolute offset raises. -/
def seek (off : Int) : M Unit := fun _ =>
  if off < 0 then .error .badSeek else .ok ((), off.toNat)

/-- `stream.read(n)` as used under `struct.unpack`: exactly `n` bytes are
required, otherwise the unpack raises. -/
def readBytes (d : List Nat) (n : Nat) : M (List Nat) := fun p =>
  if p + n ≤ d.length then .ok ((d.drop p).take n, p + n) else .error .truncated

/-- The unsigned 32-bit value of four bytes under the given byte order. -/
def u32OfBytes (e : Endian) (bs : List Nat) : Nat :=
  match e, bs with
  | .big, [b0, b1, b2, b3] => ((b0 * 256 + b1) * 256 + b2) * 256 + b3
  | .little, [b0, b1, b2, b3] => ((b3 * 256 + b2) * 256 + b1) * 256 + b0
  | _, _ => 0

/-- The signed 32-bit value of four bytes (`struct` format `i`). -/
def int32OfBytes (e : Endian) (bs : List Nat) : Int :=
  let u := u32OfBytes e bs
  if u < 2 ^ 31 then (u : Int) else (u : Int) - 2 ^ 32

/-- `BufferedDataReader.readInt`. -/
def readInt (d : List Nat) (e : Endian) : M Int :=
  mbind (readBytes d 4) fun bs => mret (int32OfBytes e bs)

/-- `BufferedDataReader.readFloat`, modelled by the raw IEEE-754 bit pattern
of the four bytes (the numeric float value is never computed with). -/
def readFloatBits (d : List Nat) (e : Endian) : M Nat :=
  mbind (readBytes d 4) fun bs => mret (u32OfBytes e bs)

/-- The bytes strictly before the first `0x00` of a list, `none` when no
`0x00` occurs. -/
def takeUntilNull : List Nat → Option (List Nat)
  | [] => none
  | b :: rest => if b = 0 then some [] else (takeUntilNull rest).map (b :: ·)

/-- `BufferedDataReader.readUntil(b'\x00')`: consume bytes up to (not
including) the terminator; running off the end of the stream raises. -/
def readUntilNull (d : List Nat) : M (List Nat) := fun p =>
  match takeUntilNull (d.drop p) with
  | none => .error .noTerminator
  | some bs => .ok (bs, p + bs.length)

/-- `bytes.decode("ASCII")` on bytes already checked to be `< 0x80`. -/
def asciiDecode (bs : List Nat) : String :=
  String.mk (bs.map Char.ofNat)

/-- The module-level `readAt` helper: remember the cursor, seek to `off`, run
the wrapped computation, restore the cursor. -/
def readAt {α : Type} (_d : List Nat) (off : Int) (m : M α) : M α := fun p =>
  match seek off p with
  | .error err => .error err
  | .ok (_, q) =>
    match m q with
    | .error err => .error err
    | .ok (r, _) => .ok (r, p)

/-- `BufferedDataReader.readStringAt`. -/
def readStringAt (d : List Nat) (off : Int) : M String :=
  mbind (readAt d off (readUntilNull d)) fun bs =>
  if bs.all (fun b => b < 128) then mret (asciiDecode bs) else mfail .badEncoding

/-- `BufferedDataReader.readString`: the scoped lookup at the current
position. -/
def readString (d : List Nat) : M String :=
  mbind tell fun p => readStringAt d (p : Int)

/-- `stream.read(n)` used directly on the raw payload (no `struct.unpack`):
a short read is silent, and a negative count reads to the end of the file. -/
def readRaw (d : List Nat) (n : Int) : M (List Nat) := fun p =>
  if n < 0 then .ok (d.drop p, p + (d.drop p).length)
  else .ok ((d.drop p).take n.toNat, p + ((d.drop p).take n.toNat).length)

/-! ### Python string helpers used by the decoder -/

/-- Python `str.split(sep)` for a one-character separator, on character
lists.  (`str.rsplit(sep)` with no maxsplit coincides with it.) -/
def splitOnChar (sep : Char) : List Char → List (List Char)
  | [] => [[]]
  | c :: rest =>
    if c = sep then [] :: splitOnChar sep rest
    else
      match splitOnChar sep rest with
      | [] => [[c]]
      | g :: gs => (c :: g) :: gs

/-- Python `str.split(sep)` on strings. -/
def pySplit (sep : Char) (s : String) : List String :=
  (splitOnChar sep s.data).map String.mk

/-- Python `lst[-1]` on a split result (a split result is never empty). -/
def pyLastD : List (List Char) → List Char
  | [] => []
  | [g] => g
  | _ :: gs => pyLastD gs

/-- `os.path.dirname` (posix): everything up to the last `'/'`, with
trailing slashes stripped unless the head is nothing but slashes. -/
def pyDirname (p : String) : String :=
  let head := ((p.data.reverse.dropWhile (fun c => c ≠ '/')).reverse)
  if head.any (fun c => c ≠ '/') then
    String.mk ((head.reverse.dropWhile (fun c => c = '/')).reverse)
  else
    String.mk head

/-- Python `hex` on an `int`. -/
def pyHex (i : Int) : String :=
  if i < 0 then "-0x" ++ String.mk (Nat.toDigits 16 i.natAbs)
  else "0x" ++ String.mk (Nat.toDigits 16 i.toNat)

/-- A base-10 digit. -/
def isDecDigit (c : Char) : Bool := '0' ≤ c ∧ c ≤ '9'

/-- Python whitespace stripped by `int`. -/
def isPySpace (c : Char) : Bool :=
  c = ' ' ∨ c = '\t' ∨ c = '\n' ∨ c = '\r' ∨ c = '\x0b' ∨ c = '\x0c'

/-- The numeric value of a digit list. -/
def digitsToNat (cs : List Char) : Nat :=
  cs.foldl (fun acc c => acc * 10 + (c.toNat - '0'.toNat)) 0

/-- Python `int(s)` for base 10: surrounding whitespace is stripped, an
optional sign is allowed, and the rest must be a nonempty digit run
(`ValueError` becomes `none`; digit-group underscores are not modelled, the
decoder never meets them). -/
def pyInt? (s : String) : Option Int :=
  let cs := ((s.data.dropWhile isPySpace).reverse.dropWhile isPySpace).reverse
  match cs with
  | '-' :: rest =>
    if rest ≠ [] ∧ rest.all isDecDigit then some (-(digitsToNat rest : Int)) else none
  | '+' :: rest =>
    if rest ≠ [] ∧ rest.all isDecDigit then some (digitsToNat rest : Int) else none
  | _ =>
    if cs ≠ [] ∧ cs.all isDecDigit then some (digitsToNat cs : Int) else none

/-- Line 214 of `msscmp.py`:
`int(file_name.split('*')[-1].rsplit('.')[0])`, with the `ValueError` case
as `none`. -/
def deriveDataOffset (file_name : String) : Option Int :=
  pyInt? (String.mk ((splitOnChar '.' (pyLastD (splitOnChar '*' file_name.data))).headD []))

/-! ### The decoded data model -/

/-- `BankHeader`. -/
structure BankHeader where
  name : String
  filename : String
  mem_usage : Int
  version : Int
deriving DecidableEq

/-- A value stored in the `unknown_data` dict of a source.  The Python dict
holds mixed types: plain ints, strings, and one float.  The float is carried
as its raw IEEE-754 bit pattern; the `"Duration"` entry is the string
`f"{d} ms ({d/1_000} sec)"`, carried as the underlying integer `d` because
the exact decimal rendering of the float `d/1_000` is out of scope. -/
inductive UnknownVal where
  | int (i : Int)
  | str (s : String)
  | float32 (bits : Nat)
  | durationStr (ms : Int)
deriving DecidableEq

/-- `BankSource`. -/
structure BankSource where
  path_offset : Int
  path : String
  file_name : String
  file_size : Int
  sample_rate : Int
  data_offset : Int
  play_action : Int
  unknown_data : List (String × UnknownVal)
  data : List Nat
deriving DecidableEq

/-- `BankEvent`. -/
structure BankEvent where
  name : String
  raw_string_data_format : String
  sources : List BankSource
  properties : List String
deriving DecidableEq

/-- The event dict of `BankInfo`, as an insertion-ordered association list
(Python dict semantics). -/
abbrev Events : Type := List (String × BankEvent)

/-- `BankInfo`. -/
structure BankInfo where
  header : BankHeader
  events : Events
deriving DecidableEq

/-- Python `dict.get(k, None)` / `dict[k]`. -/
def dictGet? {α : Type} (k : String) : List (String × α) → Option α
  | [] => none
  | (k', v) :: rest => if k' = k then some v else dictGet? k rest

/-- Python `dict[k] = v`: overwrite in place, or append a fresh key. -/
def dictInsert {α : Type} (k : String) (v : α) : List (String × α) → List (String × α)
  | [] => [(k, v)]
  | (k', v') :: rest =>
    if k' = k then (k, v) :: rest else (k', v') :: dictInsert k v rest

/-- `events[event_name].sources.append(source)`. -/
def appendSource (k : String) (s : BankSource) : Events → Events
  | [] => []
  | (k', ev) :: rest =>
    if k' = k then (k', { ev with sources := ev.sources ++ [s] }) :: rest
    else (k', ev) :: appendSource k s rest

/-! ### The decoder (`MsscmpParser`) -/

/-- `MsscmpParser.decodeEventProperties`. -/
def decodeEventProperties (raw_property_event_string : String) : List String :=
  pySplit ';' raw_property_event_string

/-- `MsscmpParser.readBankHeader` (`readInts(3)` is three consecutive int32
reads; the two string reads are scoped and leave the cursor alone). -/
def readBankHeader (d : List Nat) (e : Endian) : M BankHeader :=
  mbind (readInt d e) fun version =>
  mbind (readInt d e) fun mem_usage =>
  mbind (readInt d e) fun _r =>
  mbind (readString d) fun filename =>
  mbind (readStringAt d 0x38) fun name =>
  mret { name := name, filename := filename, mem_usage := mem_usage, version := version }

/-- `MsscmpParser.readBankSource`.  The `unknown_data` dict is assembled in
the source's insertion order; `play_action`, `sample_rate`, `file_size` are
not stored in it.  The payload read at the end is scoped (`readAt`). -/
def readBankSource (d : List Nat) (e : Endian) (source_path_offset : Int) : M BankSource :=
  mbind tell fun current_offset =>
  mbind (readInt d e) fun recived_source_name_offset =>
  if source_path_offset ≠ recived_source_name_offset then
    mfail (.offsetIntegrity source_path_offset recived_source_name_offset)
  else
  mbind (readStringAt d source_path_offset) fun path_name =>
  mbind (readInt d e) fun rel =>
  mbind (readStringAt d (rel + (current_offset : Int))) fun file_name =>
  mbind (readInt d e) fun u08 =>
  mbind (readInt d e) fun play_action =>
  mbind (readInt d e) fun u10 =>
  mbind (readInt d e) fun sample_rate =>
  mbind (readInt d e) fun file_size =>
  mbind (readInt d e) fun channels =>
  mbind (readInt d e) fun u20 =>
  mbind (readInt d e) fun duration_milliseconds =>
  mbind (readInt d e) fun u28 =>
  mbind (readInt d e) fun u2C =>
  mbind (readInt d e) fun u30 =>
  mbind (readFloatBits d e) fun f34 =>
  mbind (readInt d e) fun u38 =>
  match deriveDataOffset file_name with
  | none => mfail (.badIntLiteral file_name)
  | some data_offset =>
    mbind (readAt d data_offset (readRaw d file_size)) fun data =>
    mret { path_offset := source_path_offset
         , path := path_name
         , file_name := file_name
         , file_size := file_size
         , sample_rate := sample_rate
         , data_offset := data_offset
         , play_action := play_action
         , unknown_data :=
             [ ("source_offset", .int (current_offset : Int))
             , ("0x08", .str (pyHex u08))
             , ("0x10", .int u10)
             , ("Channels", .int channels)
             , ("0x20", .int u20)
             , ("Duration", .durationStr duration_milliseconds)
             , ("0x28", .int u28)
             , ("0x2C", .int u2C)
             , ("0x30", .int u30)
             , ("0x34", .float32 f34)
             , ("0x38", .int u38) ]
         , data := data }

/-- One event-table entry (the body of the first loop in
`MsscmpParser.process`): two int32 reads, two scoped string reads, then
`self.bankinfo.events[os.path.dirname(event_name)] = event`. -/
def processEvent (d : List Nat) (e : Endian) (evs : Events) : M Events :=
  mbind (readInt d e) fun offset_event_name =>
  mbind (readInt d e) fun offset_event_details =>
  mbind (readStringAt d offset_event_name) fun event_name =>
  mbind (readStringAt d offset_event_details) fun raw_property_string =>
  mret (dictInsert (pyDirname event_name)
    { name := event_name
    , raw_string_data_format := raw_property_string
    , sources := []
    , properties := decodeEventProperties raw_property_string } evs)

/-- The event-table loop. -/
def processEvents (d : List Nat) (e : Endian) : Nat → Events → M Events
  | 0, evs => mret evs
  | n + 1, evs => mbind (processEvent d e evs) fun evs' => processEvents d e n evs'

/-- The linking step of the source loop: look the directory component of the
source path up among the event keys, append on a hit, do nothing otherwise. -/
def linkSource (evs : Events) (source : BankSource) : Events :=
  match dictGet? (pyDirname source.path) evs with
  | none => evs
  | some _ => appendSource (pyDirname source.path) source evs

/-- One source-table entry (the body of the second loop in
`MsscmpParser.process`): two int32 reads, a scoped full record decode at
`info_offset`, then the linking step. -/
def processSourceEntry (d : List Nat) (e : Endian) (evs : Events) : M Events :=
  mbind (readInt d e) fun path_offset =>
  mbind (readInt d e) fun info_offset =>
  mbind (readAt d info_offset (readBankSource d e path_offset)) fun source =>
  mret (linkSource evs source)

/-- The source-table loop. -/
def processSources (d : List Nat) (e : Endian) : Nat → Events → M Events
  | 0, evs => mret evs
  | n + 1, evs => mbind (processSourceEntry d e evs) fun evs' => processSources d e n evs'

/-- `b'BANK'`. -/
def bankSigBytes : List Nat := [0x42, 0x41, 0x4E, 0x4B]

/-- `b'KNAB'`. -/
def knabSigBytes : List Nat := [0x4B, 0x4E, 0x41, 0x42]

/-- `MsscmpParser.process` after the signature check: header, the two
5-int32 groups (10 consecutive int32 reads), the conditional seeks, the two
table loops. -/
def processBody (d : List Nat) (e : Endian) : M BankInfo :=
  mbind (readBankHeader d e) fun header =>
  mbind (readInt d e) fun _start =>
  mbind (readInt d e) fun event_table_start =>
  mbind (readInt d e) fun _u1 =>
  mbind (readInt d e) fun _u2 =>
  mbind (readInt d e) fun source_table_start =>
  mbind (readInt d e) fun _start_count =>
  mbind (readInt d e) fun event_count =>
  mbind (readInt d e) fun _uc1 =>
  mbind (readInt d e) fun _uc2 =>
  mbind (readInt d e) fun source_count =>
  mbind tell fun p1 =>
  mbind (if (p1 : Int) ≠ event_table_start then seek event_table_start else mret ()) fun _ =>
  mbind (processEvents d e event_count.toNat []) fun evs =>
  mbind tell fun p2 =>
  mbind (if (p2 : Int) ≠ source_table_start then seek source_table_start else mret ()) fun _ =>
  mbind (processSources d e source_count.toNat evs) fun evs2 =>
  mret { header := header, events := evs2 }

/-- `MsscmpParser.process`: the 4-byte signature selects the byte order or
rejects the file. -/
def processM (d : List Nat) : M BankInfo :=
  mbind (readBytes d 4) fun signature =>
  if signature ≠ bankSigBytes ∧ signature ≠ knabSigBytes then mfail .unrecognizedFormat
  else processBody d (if signature = knabSigBytes then .little else .big)

/-- Decoding a whole byte buffer from position 0. -/
def process (d : List Nat) : Except DecodeError BankInfo :=
  match processM d 0 with
  | .error err => .error err
  | .ok (bi, _) => .ok bi

/-! ### Concrete containers used as inputs of witnesses and counterexamples -/

/-- Four big-endian bytes of a 32-bit value. -/
def be32 (n : Nat) : List Nat :=
  [n / 0x1000000 % 256, n / 0x10000 % 256, n / 0x100 % 256, n % 256]

/-- Four little-endian bytes of a 32-bit value. -/
def le32 (n : Nat) : List Nat :=
  [n % 256, n / 0x100 % 256, n / 0x10000 % 256, n / 0x1000000 % 256]

/-- The bytes of a null-terminated ASCII string. -/
def strBytes (s : String) : List Nat :=
  s.data.map Char.toNat ++ [0]

/-- Everything of the sample container before the source-path string at
`0x42`: signature, version 8, `mem_usage` 0, one reserved int32, the two
5-int32 groups (event table at `0x46`, source table at `0x4E`, one event,
one source), the bank name `"N"` at `0x38`, the event-name string `"a/b"`
at `0x3A` and the event-details string `"p;q"` at `0x3E`. -/
def bankPre : List Nat :=
  [0x42, 0x41, 0x4E, 0x4B] ++ be32 8 ++ be32 0 ++ be32 0
  ++ be32 0 ++ be32 0x46 ++ be32 0 ++ be32 0 ++ be32 0x4E
  ++ be32 0 ++ be32 1 ++ be32 0 ++ be32 0 ++ be32 1
  ++ strBytes "N" ++ strBytes "a/b" ++ strBytes "p;q"

/-- Everything of the sample container after the 4-byte source-path string:
the event table at `0x46` (name offset `0x3A`, details offset `0x3E`), the
source table at `0x4E` (path offset `0x42`, record offset `0x56`), the
60-byte source record at `0x56` (self path offset `0x42`, file-name
relative offset `0x3C`, reserved `42`, play action `1`, reserved `7`,
sample rate `22050`, file size `4`, channels `2`, reserved `5`, duration
`1234` ms, three reserved zeros, float bits `0x3F800000`, reserved `0`),
the decorated file name `"f*160.b"` at `0x92`, padding, and the 4-byte
payload `[9, 8, 7, 6]` at absolute offset `160`. -/
def bankPost : List Nat :=
  be32 0x3A ++ be32 0x3E
  ++ be32 0x42 ++ be32 0x56
  ++ be32 0x42 ++ be32 0x3C ++ be32 42 ++ be32 1 ++ be32 7 ++ be32 22050
  ++ be32 4 ++ be32 2 ++ be32 5 ++ be32 1234 ++ be32 0 ++ be32 0 ++ be32 0
  ++ be32 0x3F800000 ++ be32 0
  ++ strBytes "f*160.b"
  ++ [0, 0, 0, 0, 0, 0]
  ++ [9, 8, 7, 6]

/-- A well-formed sample container: one event named `"a/b"`, one source
with path `"a/s"`. -/
def exBank : List Nat := bankPre ++ strBytes "a/s" ++ bankPost

/-- The same container with the source path replaced by the slashless
string `"s"` (padded to keep every offset identical). -/
def exBankNoSlash : List Nat := bankPre ++ (strBytes "s" ++ [0, 0]) ++ bankPost

/-- The same container with the source path replaced by `"x/s"`, whose
directory `"x"` matches no event key. -/
def exBankOrphan : List Nat := bankPre ++ strBytes "x/s" ++ bankPost

/-- The header decoded from all three sample containers. -/
def exHeader : BankHeader :=
  { name := "N", filename := "", mem_usage := 0, version := 8 }

/-- The source record decoded from `exBank`. -/
def exSource : BankSource :=
  { path_offset := 0x42
  , path := "a/s"
  , file_name := "f*160.b"
  , file_size := 4
  , sample_rate := 22050
  , data_offset := 160
  , play_action := 1
  , unknown_data :=
      [ ("source_offset", .int 0x56)
      , ("0x08", .str "0x2a")
      , ("0x10", .int 7)
      , ("Channels", .int 2)
      , ("0x20", .int 5)
      , ("Duration", .durationStr 1234)
      , ("0x28", .int 0)
      , ("0x2C", .int 0)
      , ("0x30", .int 0)
      , ("0x34", .float32 0x3F800000)
      , ("0x38", .int 0) ]
  , data := [9, 8, 7, 6] }

/-- The source record decoded from `exBankNoSlash`. -/
def exSourceNoSlash : BankSource := { exSource with path := "s" }

/-- The source record decoded from `exBankOrphan`. -/
def exSourceOrphan : BankSource := { exSource with path := "x/s" }

/-- The event of the sample containers before any source is linked. -/
def exEvent0 : BankEvent :=
  { name := "a/b", raw_string_data_format := "p;q", sources := [], properties := ["p", "q"] }

/-- The event of `exBank` after its source is linked. -/
def exEvent1 : BankEvent := { exEvent0 with sources := [exSource] }

/-- A minimal zero-event, zero-source big-endian container whose version
field holds the four given bytes. -/
def mkCver (b4 b5 b6 b7 : Nat) : List Nat :=
  [0x42, 0x41, 0x4E, 0x4B, b4, b5, b6, b7] ++ be32 0 ++ be32 0
  ++ be32 0 ++ be32 0x3A ++ be32 0 ++ be32 0 ++ be32 0x3A
  ++ be32 0 ++ be32 0 ++ be32 0 ++ be32 0 ++ be32 0
  ++ strBytes "N"

/-- A minimal zero-event, zero-source little-endian (`b'KNAB'`) container. -/
def knabBank : List Nat :=
  [0x4B, 0x4E, 0x41, 0x42] ++ le32 8 ++ le32 0 ++ le32 0
  ++ le32 0 ++ le32 0x3A ++ le32 0 ++ le32 0 ++ le32 0x3A
  ++ le32 0 ++ le32 0 ++ le32 0 ++ le32 0 ++ le32 0
  ++ strBytes "N"

/-! ### Basic lemmas about the reader -/

/-- The int32 stored at a byte offset of the stream. -/
def int32At (d : List Nat) (e : Endian) (off : Nat) : Int :=
  int32OfBytes e ((d.drop off).take 4)

/-- The unsigned 32-bit value stored at a byte offset of the stream. -/
def u32At (d : List Nat) (e : Endian) (off : Nat) : Nat :=
  u32OfBytes e ((d.drop off).take 4)

theorem mbind_eq_ok {α β : Type} {m : M α} {f : α → M β} {p q : Nat} {b : β}
    (h : mbind m f p = .ok (b, q)) :
    ∃ a r, m p = .ok (a, r) ∧ f a r = .ok (b, q) := by
  unfold mbind at h
  cases hm : m p with
  | error err => rw [hm] at h; cases h
  | ok ar =>
    obtain ⟨a, r⟩ := ar
    rw [hm] at h
    exact ⟨a, r, rfl, h⟩

theorem mret_eq_ok {α : Type} {a b : α} {p q : Nat}
    (h : mret a p = .ok (b, q)) : b = a ∧ q = p := by
  unfold mret at h
  cases h
  exact ⟨rfl, rfl⟩

theorem seek_eq_ok {off : Int} {p q : Nat} {u : Unit}
    (h : seek off p = .ok (u, q)) : q = off.toNat := by
  unfold seek at h
  split at h
  · cases h
  · cases h; rfl

theorem readBytes_eq_ok {d : List Nat} {n : Nat} {p q : Nat} {bs : List Nat}
    (h : readBytes d n p = .ok (bs, q)) :
    bs = (d.drop p).take n ∧ q = p + n := by
  unfold readBytes at h
  split at h
  · cases h; exact ⟨rfl, rfl⟩
  · cases h

theorem readInt_eq_ok {d : List Nat} {e : Endian} {p q : Nat} {v : Int}
    (h : readInt d e p = .ok (v, q)) : v = int32At d e p ∧ q = p + 4 := by
  obtain ⟨bs, r, h1, h2⟩ := mbind_eq_ok h
  obtain ⟨hbs, hr⟩ := readBytes_eq_ok h1
  obtain ⟨hv, hq⟩ := mret_eq_ok h2
  subst hbs hr hv hq
  exact ⟨rfl, rfl⟩

theorem readFloatBits_eq_ok {d : List Nat} {e : Endian} {p q : Nat} {v : Nat}
    (h : readFloatBits d e p = .ok (v, q)) : v = u32At d e p ∧ q = p + 4 := by
  obtain ⟨bs, r, h1, h2⟩ := mbind_eq_ok h
  obtain ⟨hbs, hr⟩ := readBytes_eq_ok h1
  obtain ⟨hv, hq⟩ := mret_eq_ok h2
  subst hbs hr hv hq
  exact ⟨rfl, rfl⟩

/-- The frame property of `readAt`: on success the cursor is back where it
started, whatever the wrapped computation did. -/
theorem readAt_eq_ok_pos {α : Type} {d : List Nat} {off : Int} {m : M α}
    {p q : Nat} {r : α} (h : readAt d off m p = .ok (r, q)) : q = p := by
  unfold readAt at h
  cases hs : seek off p with
  | error err => rw [hs] at h; cases h
  | ok uq =>
    obtain ⟨u, q'⟩ := uq
    simp only [hs] at h
    cases hm : m q' with
    | error err => simp only [hm] at h; cases h
    | ok rs =>
      obtain ⟨r', s'⟩ := rs
      simp only [hm] at h
      cases h
      rfl

/-- The frame property of `readStringAt`. -/
theorem readStringAt_eq_ok_pos {d : List Nat} {off : Int} {p q : Nat} {s : String}
    (h : readStringAt d off p = .ok (s, q)) : q = p := by
  obtain ⟨bs, r, h1, h2⟩ := mbind_eq_ok h
  have hr := readAt_eq_ok_pos h1
  subst hr
  split at h2
  · exact (mret_eq_ok h2).2
  · cases h2

/-- The frame property of `readString`. -/
theorem readString_eq_ok_pos {d : List Nat} {p q : Nat} {s : String}
    (h : readString d p = .ok (s, q)) : q = p := by
  obtain ⟨a, r, h1, h2⟩ := mbind_eq_ok h
  unfold tell at h1
  cases h1
  exact readStringAt_eq_ok_pos h2

/-- Forward computation of `mbind` from the results of its two stages. -/
theorem mbind_computes {α β : Type} {m : M α} {f : α → M β} {p r : Nat} {a : α}
    {out : Except DecodeError (β × Nat)}
    (hm : m p = .ok (a, r)) (hf : f a r = out) : mbind m f p = out := by
  unfold mbind
  simp only [hm, hf]

/-- Forward computation of `readAt` from the results of the seek and the
wrapped computation. -/
theorem readAt_computes {α : Type} {d : List Nat} {off : Int} {m : M α}
    {p q' s : Nat} {r : α}
    (hs : seek off p = .ok ((), q')) (hm : m q' = .ok (r, s)) :
    readAt d off m p = .ok (r, p) := by
  unfold readAt
  simp only [hs, hm]

/-- What a successful `readStringAt` returns: the bytes at the target up to
the `0x00` terminator, decoded, with the cursor untouched. -/
theorem readStringAt_reads (d : List Nat) (off p : Nat) (bs : List Nat)
    (h : takeUntilNull (d.drop off) = some bs)
    (hb : bs.all (fun b => b < 128) = true) :
    readStringAt d (off : Int) p = .ok (asciiDecode bs, p) := by
  have hseek : seek (off : Int) p = .ok ((), off) := by
    unfold seek
    rw [if_neg (by omega), Int.toNat_natCast]
  have hrun : readUntilNull d off = .ok (bs, off + bs.length) := by
    unfold readUntilNull
    rw [h]
  unfold readStringAt
  refine mbind_computes (readAt_computes hseek hrun) ?_
  rw [if_pos hb]
  rfl

/-- Looking a key up right after writing it (Python dict semantics). -/
theorem dictGet?_dictInsert {α : Type} (k : String) (v : α) (l : List (String × α)) :
    dictGet? k (dictInsert k v l) = some v := by
  induction l with
  | nil => simp [dictInsert, dictGet?]
  | cons kv rest ih =>
    obtain ⟨k', v'⟩ := kv
    by_cases hk : k' = k
    · subst hk
      simp [dictInsert, dictGet?]
    · simp [dictInsert, dictGet?, hk, ih]

/-! ### Characterising `split`-based string surgery -/

/-- The suffix of a character list after its last occurrence of `sep` (the
whole list when `sep` does not occur): what Python `s.split(sep)[-1]`
denotes. -/
def lastSegment (sep : Char) : List Char → List Char
  | [] => []
  | c :: rest =>
    if rest.any (fun x => x = sep) then lastSegment sep rest
    else if c = sep then rest
    else c :: rest

theorem splitOnChar_cons_sep (sep c : Char) (rest : List Char) (hc : c = sep) :
    splitOnChar sep (c :: rest) = [] :: splitOnChar sep rest := by
  simp only [splitOnChar]
  rw [if_pos hc]

theorem splitOnChar_cons_ne (sep c : Char) (rest : List Char) (hc : ¬c = sep)
    (g : List Char) (gs : List (List Char)) (hg : splitOnChar sep rest = g :: gs) :
    splitOnChar sep (c :: rest) = (c :: g) :: gs := by
  unfold splitOnChar
  rw [if_neg hc, hg]

theorem splitOnChar_ne_nil (sep : Char) (cs : List Char) : splitOnChar sep cs ≠ [] := by
  cases cs with
  | nil => simp [splitOnChar]
  | cons c rest =>
    by_cases hc : c = sep
    · rw [splitOnChar_cons_sep sep c rest hc]
      simp
    · cases hs : splitOnChar sep rest with
      | nil =>
        unfold splitOnChar
        rw [if_neg hc, hs]
        simp
      | cons g gs =>
        rw [splitOnChar_cons_ne sep c rest hc g gs hs]
        simp

theorem splitOnChar_of_no_sep (sep : Char) (cs : List Char)
    (h : cs.any (fun c => c = sep) = false) : splitOnChar sep cs = [cs] := by
  induction cs with
  | nil => rfl
  | cons c rest ih =>
    rw [List.any_cons, Bool.or_eq_false_iff] at h
    obtain ⟨h1, h2⟩ := h
    have hc : ¬c = sep := by simpa using h1
    rw [splitOnChar_cons_ne sep c rest hc rest [] (ih h2)]

theorem splitOnChar_of_sep (sep : Char) (cs : List Char)
    (h : cs.any (fun c => c = sep) = true) :
    ∃ g gs, splitOnChar sep cs = g :: gs ∧ gs ≠ [] := by
  induction cs with
  | nil => cases h
  | cons c rest ih =>
    by_cases hc : c = sep
    · refine ⟨[], splitOnChar sep rest, splitOnChar_cons_sep sep c rest hc, ?_⟩
      exact splitOnChar_ne_nil sep rest
    · have h2 : rest.any (fun x => x = sep) = true := by
        rw [List.any_cons] at h
        simpa [hc] using h
      obtain ⟨g, gs, hg, hne⟩ := ih h2
      exact ⟨c :: g, gs, splitOnChar_cons_ne sep c rest hc g gs hg, hne⟩

theorem lastSegment_cons_seen (sep c : Char) (rest : List Char)
    (ha : rest.any (fun x => x = sep) = true) :
    lastSegment sep (c :: rest) = lastSegment sep rest := by
  simp only [lastSegment]
  rw [if_pos ha]

theorem lastSegment_cons_unseen (sep c : Char) (rest : List Char)
    (ha : rest.any (fun x => x = sep) = false) :
    lastSegment sep (c :: rest) = if c = sep then rest else c :: rest := by
  unfold lastSegment
  rw [if_neg (by simp [ha])]

/-- Python `s.split(sep)[-1]` is the suffix after the last separator. -/
theorem pyLastD_splitOnChar (sep : Char) (cs : List Char) :
    pyLastD (splitOnChar sep cs) = lastSegment sep cs := by
  induction cs with
  | nil => rfl
  | cons c rest ih =>
    by_cases ha : rest.any (fun x => x = sep) = true
    · obtain ⟨g, gs, hg, hne⟩ := splitOnChar_of_sep sep rest ha
      cases gs with
      | nil => exact absurd rfl hne
      | cons g' gs' =>
        rw [lastSegment_cons_seen sep c rest ha, ← ih, hg]
        by_cases hc : c = sep
        · rw [splitOnChar_cons_sep sep c rest hc, hg]
          simp only [pyLastD]
        · rw [splitOnChar_cons_ne sep c rest hc g (g' :: gs') hg]
          simp only [pyLastD]
    · have hb : rest.any (fun x => x = sep) = false := by
        rw [Bool.not_eq_true] at ha
        exact ha
      have hs := splitOnChar_of_no_sep sep rest hb
      rw [lastSegment_cons_unseen sep c rest hb]
      by_cases hc : c = sep
      · rw [splitOnChar_cons_sep sep c rest hc, hs, if_pos hc]
        simp only [pyLastD]
      · rw [splitOnChar_cons_ne sep c rest hc rest [] hs, if_neg hc]
        simp only [pyLastD]

/-- Python `s.split(sep)[0]` is the longest separator-free head. -/
theorem headD_splitOnChar (sep : Char) (cs : List Char) :
    (splitOnChar sep cs).headD [] = cs.takeWhile (fun c => c ≠ sep) := by
  induction cs with
  | nil => rfl
  | cons c rest ih =>
    by_cases hc : c = sep
    · rw [splitOnChar_cons_sep sep c rest hc]
      simp [List.takeWhile_cons, hc]
    · cases hsp : splitOnChar sep rest with
      | nil => exact absurd hsp (splitOnChar_ne_nil sep rest)
      | cons g gs =>
        rw [splitOnChar_cons_ne sep c rest hc g gs hsp]
        rw [hsp] at ih
        simp only [List.headD_cons] at ih
        simp [List.takeWhile_cons, hc, ih]

/-- A path without `'/'` has the empty string as its `os.path.dirname`. -/
theorem pyDirname_eq_empty_of_no_slash (s : String)
    (hs : s.data.all (fun c => c ≠ '/') = true) : pyDirname s = "" := by
  unfold pyDirname
  have h1 : s.data.reverse.dropWhile (fun c => c ≠ '/') = [] := by
    rw [List.dropWhile_eq_nil_iff]
    intro x hx
    exact List.all_eq_true.mp hs x (List.mem_reverse.mp hx)
  rw [h1]
  simp

theorem tell_eq_ok {p q a : Nat} (h : tell p = .ok (a, q)) : a = p ∧ q = p := by
  unfold tell at h
  cases h
  exact ⟨rfl, rfl⟩

/-! ### The claims -/

/-- C5: a scoped string read (`readStringAt(offset)`, and `readString()`,
which uses the current position as the offset) returns the null-terminated
string found at that offset and leaves the stream position exactly where it
was before the lookup began — stated for every stream, offset and position
at which a terminator exists and the bytes decode as ASCII (otherwise the
Python code raises instead of returning). -/
theorem readStringAt_scoped (d : List Nat) (off p : Nat) (bs : List Nat)
    (h : takeUntilNull (d.drop off) = some bs)
    (hb : bs.all (fun b => b < 128) = true) :
    readStringAt d (off : Int) p = .ok (asciiDecode bs, p) ∧
    readString d off = .ok (asciiDecode bs, off) := by
  refine ⟨readStringAt_reads d off p bs h hb, ?_⟩
  unfold readString
  exact mbind_computes rfl (readStringAt_reads d off off bs h hb)

/-- C5 witness: a concrete scoped read from a three-byte stream. -/
theorem readStringAt_scoped_instance :
    readStringAt [65, 66, 0] ((0 : Nat) : Int) 2 = .ok (asciiDecode [65, 66], 2) ∧
    readString [65, 66, 0] 0 = .ok (asciiDecode [65, 66], 0) :=
  readStringAt_scoped [65, 66, 0] 0 2 [65, 66] (by decide) (by decide)

/-- C3: decoding a source record first reads the self path offset; when it
differs from the table's `path_offset`, the decode fails with the integrity
error carrying both values — whatever the rest of the stream holds, so
before any further field is read, and never silently corrected. -/
theorem readBankSource_offset_integrity (d : List Nat) (e : Endian)
    (spo : Int) (p q : Nat) (r : Int)
    (h : readInt d e p = .ok (r, q)) (hne : spo ≠ r) :
    readBankSource d e spo p = .error (.offsetIntegrity spo r) := by
  unfold readBankSource
  refine mbind_computes rfl ?_
  refine mbind_computes h ?_
  rw [if_pos hne]
  rfl

/-- C3 witness: a four-byte stream holding only the mismatching offset `5`
already produces the integrity error for expected offset `7`. -/
theorem readBankSource_offset_integrity_instance :
    readBankSource [0, 0, 0, 5] .big 7 0 = .error (.offsetIntegrity 7 5) :=
  readBankSource_offset_integrity [0, 0, 0, 5] .big 7 0 4 5 (by decide) (by decide)

/-- C10: a successful source-table entry leaves the cursor exactly 8 bytes
past the entry start — the scoped record decode (and the payload read
inside it) never perturbs the table walk. -/
theorem processSourceEntry_advances_eight (d : List Nat) (e : Endian)
    (evs : Events) (p : Nat) (evs' : Events) (q : Nat)
    (h : processSourceEntry d e evs p = .ok (evs', q)) : q = p + 8 := by
  unfold processSourceEntry at h
  obtain ⟨po, p1, h1, h⟩ := mbind_eq_ok h
  obtain ⟨io, p2, h2, h⟩ := mbind_eq_ok h
  obtain ⟨src, p3, h3, h⟩ := mbind_eq_ok h
  obtain ⟨-, hq⟩ := mret_eq_ok h
  obtain ⟨-, hp1⟩ := readInt_eq_ok h1
  obtain ⟨-, hp2⟩ := readInt_eq_ok h2
  have hp3 := readAt_eq_ok_pos h3
  omega

/-- C10 witness: the concrete source entry of `exBank` at `0x4E` ends at
`0x4E + 8`. -/
theorem processSourceEntry_advances_eight_instance :
    processSourceEntry exBank .big [("a", exEvent0)] 0x4E =
      .ok ([("a", exEvent1)], 0x4E + 8) := by
  have h : processSourceEntry exBank .big [("a", exEvent0)] 0x4E =
      .ok ([("a", exEvent1)], 0x56) := by decide
  have h2 := processSourceEntry_advances_eight exBank .big [("a", exEvent0)]
    0x4E [("a", exEvent1)] 0x56 h
  rw [h2] at h
  exact h

/-- C2 (amended): `readBankHeader` advances the cursor by exactly the three
int32 reads, 12 bytes — its two string reads are scoped — so `process`,
having consumed the 4-byte signature, reads the two 5-int32 groups from
cursor position `0x10`, the group region ending at `0x38` where the bank
name string sits. -/
theorem readBankHeader_advances_twelve (d : List Nat) (e : Endian)
    (p : Nat) (hdr : BankHeader) (q : Nat)
    (h : readBankHeader d e p = .ok (hdr, q)) : q = p + 12 := by
  unfold readBankHeader at h
  obtain ⟨v1, p1, h1, h⟩ := mbind_eq_ok h
  obtain ⟨v2, p2, h2, h⟩ := mbind_eq_ok h
  obtain ⟨v3, p3, h3, h⟩ := mbind_eq_ok h
  obtain ⟨s1, p4, h4, h⟩ := mbind_eq_ok h
  obtain ⟨s2, p5, h5, h⟩ := mbind_eq_ok h
  obtain ⟨-, hq⟩ := mret_eq_ok h
  obtain ⟨-, hp1⟩ := readInt_eq_ok h1
  obtain ⟨-, hp2⟩ := readInt_eq_ok h2
  obtain ⟨-, hp3⟩ := readInt_eq_ok h3
  have hp4 := readString_eq_ok_pos h4
  have hp5 := readStringAt_eq_ok_pos h5
  omega

/-- C2 (counterexample): on a concrete container the header decode starting
right after the signature (position 4) leaves the cursor at 16 = `0x10`,
not at `0x38` — and `process` reads the two 5-int32 groups right there. -/
theorem header_leaves_cursor_at_0x10 :
    readBankHeader exBank .big 4 = .ok (exHeader, 16) ∧ (16 : Nat) ≠ 0x38 := by
  exact ⟨by decide, by decide⟩

/-- C2 witness: the cursor after the header decode is `4 + 12`. -/
theorem readBankHeader_advances_twelve_instance :
    readBankHeader exBank .big 4 = .ok (exHeader, 4 + 12) := by
  have h : readBankHeader exBank .big 4 = .ok (exHeader, 16) := by decide
  have h2 := readBankHeader_advances_twelve exBank .big 4 exHeader 16 h
  rw [h2] at h
  exact h

/-- C1 (counterexample): decoding `exBank` yields an event whose `name` is
`"a/b"`, but the model's mapping keys it under `"a"` — looking up the
event's full name yields nothing. -/
theorem eventMap_misses_full_name :
    process exBank = .ok { header := exHeader, events := [("a", exEvent1)] } ∧
    exEvent1.name = "a/b" ∧
    dictGet? "a/b" [("a", exEvent1)] = none ∧
    dictGet? "a" [("a", exEvent1)] = some exEvent1 := by
  exact ⟨by decide, by decide, by decide, by decide⟩

/-- C1 (amended): each decoded event-table entry is inserted into the event
mapping keyed by the directory component (`os.path.dirname`) of the event's
name, so that looking up `dirname(e.name)` right after the insertion yields
the event just decoded. -/
theorem processEvent_inserts_dirname_key (d : List Nat) (e : Endian)
    (evs : Events) (p : Nat) (evs' : Events) (q : Nat)
    (h : processEvent d e evs p = .ok (evs', q)) :
    ∃ ev : BankEvent,
      evs' = dictInsert (pyDirname ev.name) ev evs ∧
      dictGet? (pyDirname ev.name) evs' = some ev := by
  unfold processEvent at h
  obtain ⟨o1, p1, h1, h⟩ := mbind_eq_ok h
  obtain ⟨o2, p2, h2, h⟩ := mbind_eq_ok h
  obtain ⟨nm, p3, h3, h⟩ := mbind_eq_ok h
  obtain ⟨raw, p4, h4, h⟩ := mbind_eq_ok h
  obtain ⟨hv, hq⟩ := mret_eq_ok h
  refine ⟨{ name := nm, raw_string_data_format := raw, sources := [],
            properties := decodeEventProperties raw }, hv, ?_⟩
  rw [hv]
  exact dictGet?_dictInsert _ _ evs

/-- C1 witness: the concrete event entry of `exBank` at `0x46` lands under
its name's directory key. -/
theorem processEvent_inserts_dirname_key_instance :
    ∃ ev : BankEvent,
      [("a", exEvent0)] = dictInsert (pyDirname ev.name) ev [] ∧
      dictGet? (pyDirname ev.name) [("a", exEvent0)] = some ev :=
  processEvent_inserts_dirname_key exBank .big [] 0x46 [("a", exEvent0)] 0x4E (by decide)

/-- C4 (counterexample): a container whose source path is the slashless
string `"s"` decodes without any error — no `MalformedPathError` exists in
the code. -/
theorem slashless_path_decodes_without_error :
    readBankSource exBankNoSlash .big 0x42 0x56 = .ok (exSourceNoSlash, 0x92) ∧
    exSourceNoSlash.path = "s" ∧
    process exBankNoSlash = .ok { header := exHeader, events := [("a", exEvent0)] } := by
  exact ⟨by decide, by decide, by decide⟩

/-- C4 (amended): a source path without `'/'` does not fail: its directory
component is the empty string, and the linking step just looks `""` up
among the event keys — appending on a hit, orphaning otherwise. -/
theorem slashless_path_links_under_empty_key (evs : Events) (s : BankSource)
    (hs : s.path.data.all (fun c => c ≠ '/') = true) :
    pyDirname s.path = "" ∧
    (dictGet? "" evs = none → linkSource evs s = evs) ∧
    (∀ ev : BankEvent, dictGet? "" evs = some ev →
      linkSource evs s = appendSource "" s evs) := by
  have hd := pyDirname_eq_empty_of_no_slash s.path hs
  refine ⟨hd, ?_, ?_⟩
  · intro hnone
    unfold linkSource
    rw [hd, hnone]
  · intro ev hsome
    unfold linkSource
    rw [hd, hsome]

/-- C4 witness: the slashless source of `exBankNoSlash` gets directory `""`
and is left unlinked on the concrete model. -/
theorem slashless_path_links_under_empty_key_instance :
    pyDirname exSourceNoSlash.path = "" ∧
    linkSource [("a", exEvent0)] exSourceNoSlash = [("a", exEvent0)] := by
  have h := slashless_path_links_under_empty_key [("a", exEvent0)] exSourceNoSlash (by decide)
  exact ⟨h.1, h.2.1 (by decide)⟩

/-- C8: a source whose path directory matches no event key is simply not
linked (the event model is returned unchanged, so the source appears in no
event's `sources`), and a concrete container holding such an orphan decodes
without error. -/
theorem orphan_source_not_linked :
    (∀ (evs : Events) (s : BankSource),
      dictGet? (pyDirname s.path) evs = none → linkSource evs s = evs) ∧
    process exBankOrphan = .ok { header := exHeader, events := [("a", exEvent0)] } := by
  constructor
  · intro evs s hnone
    unfold linkSource
    rw [hnone]
  · decide

/-- C8 witness: the orphan source with path `"x/s"` leaves the concrete
event model untouched. -/
theorem orphan_source_not_linked_instance :
    linkSource [("a", exEvent0)] exSourceOrphan = [("a", exEvent0)] :=
  orphan_source_not_linked.1 [("a", exEvent0)] exSourceOrphan (by decide)

/-- The payload-offset derivation as claim C6 words it: split
`embedded_file_name` on `'*'`, take the last segment, strip the file
extension (drop the suffix starting at the LAST `'.'`, as
`os.path.splitext` would), and parse the remainder as a base-10 integer. -/
def deriveDataOffsetClaimed (s : String) : Option Int :=
  let seg := pyLastD (splitOnChar '*' s.data)
  let stem :=
    if seg.any (fun c => c = '.') then
      ((seg.reverse.dropWhile (fun c => c ≠ '.')).drop 1).reverse
    else seg
  pyInt? (String.mk stem)

/-- C6 (counterexample): on `"a*1.5.binka"` the code derives `1` — the
portion before the FIRST dot of the last segment — while merely stripping
the file extension leaves `"1.5"`, which is not a valid integer, so the
claimed derivation fails where the code succeeds. -/
theorem deriveDataOffset_not_extension_strip :
    deriveDataOffset "a*1.5.binka" = some 1 ∧
    deriveDataOffsetClaimed "a*1.5.binka" = none := by
  exact ⟨by decide, by decide⟩

/-- C6 (amended): the payload-offset derivation equals taking the last
`'*'`-segment of the file name, the portion of it before its first `'.'`,
and parsing that as a base-10 integer — a pure function of the string
alone, failing exactly when that portion is not a valid integer literal;
the claim's own example derives 512. -/
theorem deriveDataOffset_characterisation :
    (∀ s : String, deriveDataOffset s =
      pyInt? (String.mk ((lastSegment '*' s.data).takeWhile (fun c => c ≠ '.')))) ∧
    deriveDataOffset "x*512.binka" = some 512 := by
  constructor
  · intro s
    unfold deriveDataOffset
    rw [pyLastD_splitOnChar, headD_splitOnChar]
  · decide

/-- C7: decoding fails at the start exactly on an unrecognized signature:
any stream whose first four bytes are neither `b'BANK'` nor `b'KNAB'` is
rejected with the format error whatever follows; the header decode copies
the `format_version` field into the header verbatim without inspecting it
(so no decode is ever rejected on the version alone), a concrete container
with version 9 decodes fine, and the byte-reversed `b'KNAB'` signature
selects little-endian decoding and succeeds. -/
theorem signature_only_failure_at_start :
    (∀ b0 b1 b2 b3 : Nat, ∀ rest : List Nat,
      [b0, b1, b2, b3] ≠ bankSigBytes → [b0, b1, b2, b3] ≠ knabSigBytes →
      process (b0 :: b1 :: b2 :: b3 :: rest) = .error .unrecognizedFormat) ∧
    (∀ (d : List Nat) (e : Endian) (p : Nat) (hdr : BankHeader) (q : Nat),
      readBankHeader d e p = .ok (hdr, q) → hdr.version = int32At d e p) ∧
    process (mkCver 0 0 0 9) =
      .ok { header := { name := "N", filename := "", mem_usage := 0, version := 9 },
            events := [] } ∧
    process knabBank = .ok { header := exHeader, events := [] } := by
  refine ⟨?_, ?_, by decide, by decide⟩
  · intro b0 b1 b2 b3 rest h1 h2
    have hrb : readBytes (b0 :: b1 :: b2 :: b3 :: rest) 4 0 = .ok ([b0, b1, b2, b3], 4) := by
      unfold readBytes
      rw [if_pos (by simp only [List.length_cons]; omega)]
      rfl
    have hpm : processM (b0 :: b1 :: b2 :: b3 :: rest) 0 = .error .unrecognizedFormat := by
      unfold processM
      refine mbind_computes hrb ?_
      rw [if_pos ⟨h1, h2⟩]
      rfl
    unfold process
    rw [hpm]
  · intro d e p hdr q h
    unfold readBankHeader at h
    obtain ⟨v1, p1, h1, h⟩ := mbind_eq_ok h
    obtain ⟨v2, p2, h2, h⟩ := mbind_eq_ok h
    obtain ⟨v3, p3, h3, h⟩ := mbind_eq_ok h
    obtain ⟨s1, p4, h4, h⟩ := mbind_eq_ok h
    obtain ⟨s2, p5, h5, h⟩ := mbind_eq_ok h
    obtain ⟨hh, hq⟩ := mret_eq_ok h
    obtain ⟨hv1, -⟩ := readInt_eq_ok h1
    rw [hh]
    exact hv1

/-- C7 witness: a garbage signature is rejected, and the sample header's
version is exactly the int32 stored at stream offset 4. -/
theorem signature_only_failure_at_start_instance :
    process [1, 2, 3, 4] = .error .unrecognizedFormat ∧
    exHeader.version = int32At exBank .big 4 := by
  constructor
  · exact signature_only_failure_at_start.1 1 2 3 4 [] (by decide) (by decide)
  · exact signature_only_failure_at_start.2.1 exBank .big 4 exHeader 16 (by decide)

/-- C9 (counterexample): in a concrete decoded record the reserved field at
record offset 8 is kept as the hex STRING `"0x2a"`, not its raw int32 value
42; the channel count is not keyed by its byte offset `0x1C` but by the
word `"Channels"`; and the duration sits under `"Duration"` as a formatted
string — neither is a typed field of `BankSource`, which has no channel or
duration field. -/
theorem unknown_fields_not_offset_keyed_raw :
    readBankSource exBank .big 0x42 0x56 = .ok (exSource, 0x92) ∧
    dictGet? "0x08" exSource.unknown_data = some (.str "0x2a") ∧
    dictGet? "0x1C" exSource.unknown_data = none ∧
    dictGet? "Channels" exSource.unknown_data = some (.int 2) ∧
    dictGet? "Duration" exSource.unknown_data = some (.durationStr 1234) := by
  exact ⟨by decide, by decide, by decide, by decide, by decide⟩

/-- C9 (amended): every successfully decoded source record retains its
reserved fields in `unknown_data` exactly as follows: the record's absolute
offset under `"source_offset"`; the reserved int32 values at record offsets
`0x10`, `0x20`, `0x28`, `0x2C`, `0x30`, `0x38` and the float32 bits at
`0x34` keyed by their hex offsets with raw values; the reserved int32 at
`0x08` keyed `"0x08"` but as its hexadecimal string rendering; and the
channel count (record offset `0x1C`) and duration (record offset `0x24`)
not as typed fields but under the keys `"Channels"` and `"Duration"`, the
latter as a formatted string. -/
theorem readBankSource_unknown_data_retention (d : List Nat) (e : Endian)
    (spo : Int) (p : Nat) (src : BankSource) (q : Nat)
    (h : readBankSource d e spo p = .ok (src, q)) :
    src.unknown_data =
      [ ("source_offset", .int (p : Int))
      , ("0x08", .str (pyHex (int32At d e (p + 8))))
      , ("0x10", .int (int32At d e (p + 16)))
      , ("Channels", .int (int32At d e (p + 28)))
      , ("0x20", .int (int32At d e (p + 32)))
      , ("Duration", .durationStr (int32At d e (p + 36)))
      , ("0x28", .int (int32At d e (p + 40)))
      , ("0x2C", .int (int32At d e (p + 44)))
      , ("0x30", .int (int32At d e (p + 48)))
      , ("0x34", .float32 (u32At d e (p + 52)))
      , ("0x38", .int (int32At d e (p + 56))) ] := by
  unfold readBankSource at h
  obtain ⟨cur, p0, hT, hk1⟩ := mbind_eq_ok h
  obtain ⟨hcur, hp0⟩ := tell_eq_ok hT
  obtain ⟨rc, p1, hRC, hk2⟩ := mbind_eq_ok hk1
  obtain ⟨-, hp1⟩ := readInt_eq_ok hRC
  by_cases hch : spo ≠ rc
  · rw [if_pos hch] at hk2
    cases hk2
  · rw [if_neg hch] at hk2
    obtain ⟨pathn, p2, hPA, hk3⟩ := mbind_eq_ok hk2
    have hp2 := readStringAt_eq_ok_pos hPA
    obtain ⟨rel, p3, hRE, hk4⟩ := mbind_eq_ok hk3
    obtain ⟨-, hp3⟩ := readInt_eq_ok hRE
    obtain ⟨fn, p4, hFN, hk5⟩ := mbind_eq_ok hk4
    have hp4 := readStringAt_eq_ok_pos hFN
    obtain ⟨u08, p5, hU08, hk6⟩ := mbind_eq_ok hk5
    obtain ⟨hv08, hp5⟩ := readInt_eq_ok hU08
    obtain ⟨pa, p6, hPL, hk7⟩ := mbind_eq_ok hk6
    obtain ⟨-, hp6⟩ := readInt_eq_ok hPL
    obtain ⟨u10, p7, hU10, hk8⟩ := mbind_eq_ok hk7
    obtain ⟨hv10, hp7⟩ := readInt_eq_ok hU10
    obtain ⟨sr, p8, hSR, hk9⟩ := mbind_eq_ok hk8
    obtain ⟨-, hp8⟩ := readInt_eq_ok hSR
    obtain ⟨fs, p9, hFS, hk10⟩ := mbind_eq_ok hk9
    obtain ⟨-, hp9⟩ := readInt_eq_ok hFS
    obtain ⟨ch, p10, hCH, hk11⟩ := mbind_eq_ok hk10
    obtain ⟨hvch, hp10⟩ := readInt_eq_ok hCH
    obtain ⟨u20, p11, hU20, hk12⟩ := mbind_eq_ok hk11
    obtain ⟨hv20, hp11⟩ := readInt_eq_ok hU20
    obtain ⟨dur, p12, hDU, hk13⟩ := mbind_eq_ok hk12
    obtain ⟨hvdu, hp12⟩ := readInt_eq_ok hDU
    obtain ⟨u28, p13, hU28, hk14⟩ := mbind_eq_ok hk13
    obtain ⟨hv28, hp13⟩ := readInt_eq_ok hU28
    obtain ⟨u2C, p14, hU2C, hk15⟩ := mbind_eq_ok hk14
    obtain ⟨hv2C, hp14⟩ := readInt_eq_ok hU2C
    obtain ⟨u30, p15, hU30, hk16⟩ := mbind_eq_ok hk15
    obtain ⟨hv30, hp15⟩ := readInt_eq_ok hU30
    obtain ⟨f34, p16, hF34, hk17⟩ := mbind_eq_ok hk16
    obtain ⟨hv34, hp16⟩ := readFloatBits_eq_ok hF34
    obtain ⟨u38, p17, hU38, hk18⟩ := mbind_eq_ok hk17
    obtain ⟨hv38, hp17⟩ := readInt_eq_ok hU38
    cases hdo : deriveDataOffset fn with
    | none =>
      simp only [hdo] at hk18
      unfold mfail at hk18
      cases hk18
    | some doff =>
      simp only [hdo] at hk18
      obtain ⟨datav, p18, hDA, hk19⟩ := mbind_eq_ok hk18
      obtain ⟨hsrc, hq'⟩ := mret_eq_ok hk19
      subst hsrc
      have e08 : p4 = p + 8 := by omega
      have e10 : p6 = p + 16 := by omega
      have e1C : p9 = p + 28 := by omega
      have e20 : p10 = p + 32 := by omega
      have e24 : p11 = p + 36 := by omega
      have e28 : p12 = p + 40 := by omega
      have e2C : p13 = p + 44 := by omega
      have e30 : p14 = p + 48 := by omega
      have e34 : p15 = p + 52 := by omega
      have e38 : p16 = p + 56 := by omega
      rw [e08] at hv08
      rw [e10] at hv10
      rw [e1C] at hvch
      rw [e20] at hv20
      rw [e24] at hvdu
      rw [e28] at hv28
      rw [e2C] at hv2C
      rw [e30] at hv30
      rw [e34] at hv34
      rw [e38] at hv38
      subst hv08 hv10 hvch hv20 hvdu hv28 hv2C hv30 hv34 hv38
      rw [hcur]

/-- C9 witness: the retention pattern evaluated on the concrete record of
`exBank` at `0x56`. -/
theorem readBankSource_unknown_data_retention_instance :
    exSource.unknown_data =
      [ ("source_offset", .int ((0x56 : Nat) : Int))
      , ("0x08", .str (pyHex (int32At exBank .big (0x56 + 8))))
      , ("0x10", .int (int32At exBank .big (0x56 + 16)))
      , ("Channels", .int (int32At exBank .big (0x56 + 28)))
      , ("0x20", .int (int32At exBank .big (0x56 + 32)))
      , ("Duration", .durationStr (int32At exBank .big (0x56 + 36)))
      , ("0x28", .int (int32At exBank .big (0x56 + 40)))
      , ("0x2C", .int (int32At exBank .big (0x56 + 44)))
      , ("0x30", .int (int32At exBank .big (0x56 + 48)))
      , ("0x34", .float32 (u32At exBank .big (0x56 + 52)))
      , ("0x38", .int (int32At exBank .big (0x56 + 56))) ] :=
  readBankSource_unknown_data_retention exBank .big 0x42 0x56 exSource 0x92 (by decide)

end Msscmp
